import Mathlib

/-!
Shallow embedding of the N8N approval service backend.

The embedding follows the Express route handlers in the repository:
the posts router (submit / approve / reject / posted / list / get /
delete), the settings router, and the Discord notification formatter.
The Prisma-backed tables are modelled as in-memory lists; JavaScript
string quirks that the handlers rely on (parseInt, the falsy-or
operator, toLowerCase / toUpperCase on ASCII data) are modelled
explicitly.
-/

/-- Post lifecycle status, mirroring the Prisma PostStatus enum. -/
inductive Status where
  | PENDING
  | APPROVED
  | REJECTED
  | POSTED
  deriving DecidableEq, Repr

/-- The database string form of a status, as stored by Prisma. -/
def statusToStr : Status → String
  | .PENDING => "PENDING"
  | .APPROVED => "APPROVED"
  | .REJECTED => "REJECTED"
  | .POSTED => "POSTED"

/-- ASCII lower-casing of one character, models the effect of the
JavaScript toLowerCase call on the ASCII strings this service uses. -/
def asciiLowerChar (c : Char) : Char :=
  if 'A' ≤ c ∧ c ≤ 'Z' then Char.ofNat (c.toNat + 32) else c

/-- ASCII lower-casing of a string. -/
def asciiLower (s : String) : String := ⟨s.data.map asciiLowerChar⟩

/-- ASCII upper-casing of one character, models toUpperCase. -/
def asciiUpperChar (c : Char) : Char :=
  if 'a' ≤ c ∧ c ≤ 'z' then Char.ofNat (c.toNat - 32) else c

/-- ASCII upper-casing of a string. -/
def asciiUpper (s : String) : String := ⟨s.data.map asciiUpperChar⟩

/-- Does the pattern occur at the head of the character list? -/
def listStarts : List Char → List Char → Bool
  | [], _ => true
  | _ :: _, [] => false
  | a :: s, b :: t => a == b && listStarts s t

/-- Does the pattern occur anywhere inside the character list? -/
def listContainsSub (sub : List Char) : List Char → Bool
  | [] => sub.isEmpty
  | c :: t => listStarts sub (c :: t) || listContainsSub sub t

/-- Substring test on strings, used to state that an error message
mentions a given status token. -/
def containsSub (s sub : String) : Bool := listContainsSub sub.data s.data

/-- Numeric value of a run of decimal digit characters. -/
def natOfDigits (l : List Char) : Nat :=
  l.foldl (fun a c => a * 10 + (c.toNat - 48)) 0

/-- Model of the JavaScript parseInt(s, 10) call: skip leading
whitespace, accept an optional sign, then the longest digit run;
none models the NaN result. -/
def jsParseInt (s : String) : Option Int :=
  let cs := s.data.dropWhile Char.isWhitespace
  match cs with
  | '-' :: rest =>
    let d := rest.takeWhile Char.isDigit
    if d.isEmpty then none else some (-(natOfDigits d : Int))
  | '+' :: rest =>
    let d := rest.takeWhile Char.isDigit
    if d.isEmpty then none else some ((natOfDigits d : Int))
  | _ =>
    let d := cs.takeWhile Char.isDigit
    if d.isEmpty then none else some ((natOfDigits d : Int))

/-- Model of the JavaScript expression (v or-else d) applied to a
parseInt result: NaN and 0 are falsy, every other number is kept. -/
def orFalsy (v : Option Int) (d : Int) : Int :=
  match v with
  | none => d
  | some n => if n = 0 then d else n

/-- The fragment of JSON values the handlers inspect: the routers only
distinguish strings from every other kind of value. -/
inductive JVal where
  | str (s : String)
  | num (n : Int)
  | null
  deriving DecidableEq

/-- A row of the posts table (Prisma model Post). -/
structure Post where
  id : Nat
  content : String
  source : Option String
  n8nCallbackUrl : String
  status : Status
  createdAt : Nat
  approvedAt : Option Nat
  postedAt : Option Nat
  deriving DecidableEq

/-- The persistent state: the posts table with its serial id counter,
and the settings table. -/
structure Db where
  posts : List Post
  nextId : Nat
  settings : List (String × String)
  deriving DecidableEq

/-- An outbound HTTP request made with fetch; the body records the
JSON.stringify object in key order. -/
structure CallbackRequest where
  url : String
  method : String
  body : List (String × JVal)
  deriving DecidableEq

/-- Observable effects of a handler, in program order. -/
inductive Event where
  | dbUpdate (id : Nat) (st : Status)
  | fetchAttempt (url : String)
  | logged (msg : String)
  deriving DecidableEq

/-- The result the fetch of the n8n callback can come back with:
a 2xx response, a non-2xx response, or a transport error. -/
inductive FetchOutcome where
  | ok
  | httpError (code : Nat)
  | netError
  deriving DecidableEq

/-- Result of one posts-router handler: the new database, the HTTP
status code, the response message, the callback requests fired, and
the effect trace. -/
structure OpResult where
  db : Db
  code : Nat
  message : String
  requests : List CallbackRequest := []
  events : List Event := []
  deriving DecidableEq

/-- prisma.post.findUnique on the id column. -/
def findPost (db : Db) (i : Int) : Option Post :=
  db.posts.find? (fun p => ((p.id : Int) == i))

/-- prisma.post.update on the id column. -/
def updatePost (db : Db) (i : Nat) (f : Post → Post) : Db :=
  { db with posts := db.posts.map (fun p => if p.id = i then f p else p) }

/-- JavaScript truthy-string check used by the submit validation:
only a non-empty string passes. -/
def truthyString : Option JVal → Option String
  | some (.str s) => if s = "" then none else some s
  | _ => none

/-- The source field as stored: the expression (source or-else null)
maps an absent or empty source to null. -/
def sourceVal : Option String → Option String
  | none => none
  | some s => if s = "" then none else some s

/-- POST /api/v1/posts/submit: validate the body, create a PENDING
post with null timestamps, respond 202. -/
def submitOp (db : Db) (content : Option JVal) (source : Option String)
    (cbUrl : Option JVal) (now : Nat) : OpResult :=
  match truthyString content with
  | none => { db := db, code := 400, message := "Content is required and must be a string" }
  | some c =>
    match truthyString cbUrl with
    | none => { db := db, code := 400, message := "n8n_callback_url is required and must be a string" }
    | some u =>
      let post : Post :=
        { id := db.nextId, content := c, source := sourceVal source,
          n8nCallbackUrl := u, status := .PENDING, createdAt := now,
          approvedAt := none, postedAt := none }
      { db := { db with posts := db.posts ++ [post], nextId := db.nextId + 1 },
        code := 202,
        message := "Post submitted successfully and pending approval",
        events := [.dbUpdate post.id .PENDING] }

/-- GET /api/v1/posts/:id/approve: parse the id, look the post up,
guard on PENDING, commit the APPROVED transition, then fire the n8n
callback; a failed callback is only logged. -/
def approveOp (db : Db) (idStr : String) (wantsJson : Bool) (now : Nat)
    (outcome : FetchOutcome) : OpResult :=
  match jsParseInt idStr with
  | none => { db := db, code := 400, message := "Invalid post ID" }
  | some i =>
    match findPost db i with
    | none => { db := db, code := 404, message := "Post not found" }
    | some p =>
      if p.status ≠ .PENDING then
        { db := db, code := 400,
          message := "This post has already been " ++ asciiLower (statusToStr p.status) ++ "." }
      else
        let db' := updatePost db p.id
          (fun q => { q with status := .APPROVED, approvedAt := some now })
        let req : CallbackRequest :=
          { url := p.n8nCallbackUrl, method := "POST",
            body := [("post_id", .num (p.id : Int)), ("status", .str "APPROVED"),
                     ("post_content", .str p.content)] }
        { db := db', code := 200,
          message := if wantsJson then "Post approved and sent for posting"
                     else "Post Approved. Pushing to LinkedIn.",
          requests := [req],
          events := [.dbUpdate p.id .APPROVED, .fetchAttempt p.n8nCallbackUrl] ++
            (match outcome with
             | .ok => []
             | .httpError _ => [.logged "n8n callback failed"]
             | .netError => [.logged "Failed to call n8n callback URL"]) }

/-- GET /api/v1/posts/:id/reject: same guards as approve, commits the
REJECTED transition, fires no callback. -/
def rejectOp (db : Db) (idStr : String) (wantsJson : Bool) : OpResult :=
  match jsParseInt idStr with
  | none => { db := db, code := 400, message := "Invalid post ID" }
  | some i =>
    match findPost db i with
    | none => { db := db, code := 404, message := "Post not found" }
    | some p =>
      if p.status ≠ .PENDING then
        { db := db, code := 400,
          message := "This post has already been " ++ asciiLower (statusToStr p.status) ++ "." }
      else
        { db := updatePost db p.id (fun q => { q with status := .REJECTED }),
          code := 200,
          message := if wantsJson then "Post rejected" else "Post Rejected. No action taken.",
          events := [.dbUpdate p.id .REJECTED] }

/-- PUT or POST /api/v1/posts/:id/posted (handlePostedConfirmation):
guard on APPROVED, commit the POSTED transition with postedAt set. -/
def confirmPostedOp (db : Db) (idStr : String) (now : Nat) : OpResult :=
  match jsParseInt idStr with
  | none => { db := db, code := 400, message := "Invalid post ID" }
  | some i =>
    match findPost db i with
    | none => { db := db, code := 404, message := "Post not found" }
    | some p =>
      if p.status ≠ .APPROVED then
        { db := db, code := 400,
          message := "Cannot mark post as posted. Current status: " ++ statusToStr p.status }
      else
        { db := updatePost db p.id
            (fun q => { q with status := .POSTED, postedAt := some now }),
          code := 200,
          message := "Post marked as posted successfully",
          events := [.dbUpdate p.id .POSTED] }

/-- DELETE /api/v1/posts/:id. -/
def deleteOp (db : Db) (idStr : String) : OpResult :=
  match jsParseInt idStr with
  | none => { db := db, code := 400, message := "Invalid post ID" }
  | some i =>
    match findPost db i with
    | none => { db := db, code := 404, message := "Post not found" }
    | some _ =>
      { db := { db with posts := db.posts.filter (fun p => !((p.id : Int) == i)) },
        code := 200, message := "Post deleted successfully" }

/-- The settings keys the routers accept. -/
def allowedKeys : List String := ["discord_webhook_url", "n8n_base_url"]

/-- prisma.settings.findUnique on the unique key column. -/
def lookupSetting (l : List (String × String)) (k : String) : Option String :=
  match l.find? (fun e => e.1 == k) with
  | none => none
  | some e => some e.2

/-- prisma.settings.upsert on the unique key column. -/
def upsertSetting (l : List (String × String)) (k v : String) : List (String × String) :=
  match l.find? (fun e => e.1 == k) with
  | none => l ++ [(k, v)]
  | some _ => l.map (fun e => if e.1 = k then (k, v) else e)

/-- Result of a settings-router handler. -/
structure SettingsResult where
  db : Db
  code : Nat
  message : String
  data : List (String × String) := []
  deriving DecidableEq

/-- One iteration of the bulk-update loop: entries with a key outside
the allow-list or a non-string value are skipped with continue. -/
def applyEntry (l : List (String × String)) (e : String × JVal) : List (String × String) :=
  if allowedKeys.contains e.1 then
    match e.2 with
    | .str s => upsertSetting l e.1 s
    | _ => l
  else l

/-- Is a bulk entry actually persisted (allow-listed key, string value)? -/
def validEntry (e : String × JVal) : Bool :=
  allowedKeys.contains e.1 &&
    (match e.2 with | .str _ => true | _ => false)

/-- PUT /api/v1/settings: apply every valid entry, skip the rest, and
answer 200 with the full resulting settings map. -/
def bulkSettingsOp (db : Db) (entries : List (String × JVal)) : SettingsResult :=
  let s' := entries.foldl applyEntry db.settings
  { db := { db with settings := s' }, code := 200,
    message := "Settings updated successfully", data := s' }

/-- PUT /api/v1/settings/:key: reject a disallowed key or a non-string
value with 400, otherwise upsert. -/
def putSettingOp (db : Db) (k : String) (v : Option JVal) : SettingsResult :=
  if allowedKeys.contains k then
    match v with
    | some (.str s) =>
      { db := { db with settings := upsertSetting db.settings k s },
        code := 200, message := "Setting updated successfully", data := [(k, s)] }
    | _ => { db := db, code := 400, message := "Value must be a string" }
  else
    { db := db, code := 400, message := "Invalid setting key" }

/-- GET /api/v1/settings/:key. -/
def getSettingOp (db : Db) (k : String) : SettingsResult :=
  match lookupSetting db.settings k with
  | none => { db := db, code := 404, message := "Setting not found" }
  | some v => { db := db, code := 200, message := "", data := [(k, v)] }

/-- Pagination block of the list response. -/
structure Pagination where
  total : Nat
  limit : Int
  offset : Int
  deriving DecidableEq

/-- Result of the list handler. -/
structure ListResult where
  code : Nat
  data : List Post
  pagination : Pagination
  deriving DecidableEq

/-- Ordering used by the list handler: creation time descending. -/
def postDescOrder (a b : Post) : Prop := b.createdAt ≤ a.createdAt

instance : DecidableRel postDescOrder :=
  fun a b => Nat.decLe b.createdAt a.createdAt

instance : IsTotal Post postDescOrder :=
  ⟨fun a b => Nat.le_total b.createdAt a.createdAt⟩

instance : IsTrans Post postDescOrder :=
  ⟨fun _ _ _ hab hbc => Nat.le_trans hbc hab⟩

/-- The where clause of the list query: an empty or absent status
query string is falsy and applies no filter; otherwise the filter is
upper-cased and compared. -/
def whereFilter (statusQ : Option String) (p : Post) : Bool :=
  match statusQ with
  | none => true
  | some s => if s = "" then true else statusToStr p.status == asciiUpper s

/-- Prisma take: a non-negative count takes from the front, a negative
count takes from the end. -/
def prismaTake (n : Int) (l : List α) : List α :=
  if 0 ≤ n then l.take n.toNat else l.drop (l.length - (-n).toNat)

/-- Prisma skip. -/
def prismaSkip (n : Int) (l : List α) : List α :=
  l.drop n.toNat

/-- GET /api/v1/posts: filter, order by createdAt descending, apply
skip then take; the take is clamped to 100 but the echoed
pagination.limit is not. -/
def listOp (db : Db) (statusQ limitQ offsetQ : Option String) : ListResult :=
  let limitStr := limitQ.getD "50"
  let offsetStr := offsetQ.getD "0"
  let filtered := db.posts.filter (whereFilter statusQ)
  let sorted := List.insertionSort postDescOrder filtered
  let takeN : Int := min (orFalsy (jsParseInt limitStr) 50) 100
  let skipN : Int := orFalsy (jsParseInt offsetStr) 0
  { code := 200
    data := prismaTake takeN (prismaSkip skipN sorted)
    pagination :=
      { total := filtered.length
        limit := orFalsy (jsParseInt limitStr) 50
        offset := skipN } }

/-- The description shown by the Discord pending-approval notice
(DiscordService.sendApprovalNotification): contents longer than 1000
characters are cut to 997 characters plus an ellipsis. -/
def displayContent (content : String) : String :=
  if content.length > 1000 then content.take 997 ++ "..." else content

/-- The description shown by the Discord status update
(DiscordService.sendStatusUpdate): a truthy content longer than 500
characters is cut to 497 plus an ellipsis; a falsy content (absent or
empty) falls back to a generic status line. -/
def statusUpdateDescription (postId : Nat) (status : Status) (content : Option String) : String :=
  match content with
  | some c =>
    if c = "" then
      "Post #" ++ toString postId ++ " has been " ++ asciiLower (statusToStr status) ++ "."
    else if c.length > 500 then c.take 497 ++ "..." else c
  | none =>
    "Post #" ++ toString postId ++ " has been " ++ asciiLower (statusToStr status) ++ "."

/-- The legal status edges of the approval workflow. -/
def StatusEdge (a b : Status) : Prop :=
  (a = .PENDING ∧ b = .APPROVED) ∨ (a = .PENDING ∧ b = .REJECTED) ∨
  (a = .APPROVED ∧ b = .POSTED)

/-- Per-record timestamp invariant of the data model. -/
def TimestampInv (p : Post) : Prop :=
  (p.approvedAt.isSome = true ↔ (p.status = .APPROVED ∨ p.status = .POSTED)) ∧
  (p.postedAt.isSome = true ↔ p.status = .POSTED)

/-- Full store invariant: timestamps match statuses, ids are below the
serial counter, and ids are pairwise distinct. -/
def StoreInv (db : Db) : Prop :=
  (∀ p ∈ db.posts, TimestampInv p ∧ p.id < db.nextId) ∧
  db.posts.Pairwise (fun a b => a.id ≠ b.id)

/-- The freshly migrated store: no rows, serial counter at 1. -/
def db0 : Db := { posts := [], nextId := 1, settings := [] }

/-- States of the store reachable through the HTTP surface. -/
inductive Reachable : Db → Prop where
  | init : Reachable db0
  | submit (db content source cbUrl now) (h : Reachable db) :
      Reachable (submitOp db content source cbUrl now).db
  | approve (db idStr wantsJson now outcome) (h : Reachable db) :
      Reachable (approveOp db idStr wantsJson now outcome).db
  | reject (db idStr wantsJson) (h : Reachable db) :
      Reachable (rejectOp db idStr wantsJson).db
  | posted (db idStr now) (h : Reachable db) :
      Reachable (confirmPostedOp db idStr now).db
  | del (db idStr) (h : Reachable db) :
      Reachable (deleteOp db idStr).db
  | putSetting (db k v) (h : Reachable db) :
      Reachable (putSettingOp db k v).db
  | bulkSettings (db entries) (h : Reachable db) :
      Reachable (bulkSettingsOp db entries).db

/-- One application of a record-mutating operation named by the spec:
submit, approve, reject, confirmPosted. -/
inductive OpStep : Db → Db → Prop where
  | submit (db content source cbUrl now) :
      OpStep db (submitOp db content source cbUrl now).db
  | approve (db idStr wantsJson now outcome) :
      OpStep db (approveOp db idStr wantsJson now outcome).db
  | reject (db idStr wantsJson) :
      OpStep db (rejectOp db idStr wantsJson).db
  | posted (db idStr now) :
      OpStep db (confirmPostedOp db idStr now).db

/-- A concrete store: one post submitted through the submit handler. -/
def dbA : Db :=
  (submitOp db0 (some (.str "Hello")) none (some (.str "https://cb.example/x")) 10).db

/-- The single post living in dbA. -/
def postA : Post :=
  { id := 1, content := "Hello", source := none,
    n8nCallbackUrl := "https://cb.example/x", status := .PENDING,
    createdAt := 10, approvedAt := none, postedAt := none }

/-- The store after approving the post of dbA. -/
def dbB : Db := (approveOp dbA "1" true 20 .ok).db

/-- The post of dbB: approved at time 20. -/
def postB : Post := { postA with status := .APPROVED, approvedAt := some 20 }

/-! ### Helper lemmas -/

theorem listStarts_self_append (s t : List Char) : listStarts s (s ++ t) = true := by
  induction s with
  | nil => rfl
  | cons a s ih => simp [listStarts, ih]

theorem listContainsSub_self_append (b t : List Char) : listContainsSub b (b ++ t) = true := by
  cases b with
  | nil =>
    cases t with
    | nil => rfl
    | cons c u =>
      simp only [List.nil_append, listContainsSub, Bool.or_eq_true]
      exact Or.inl rfl
  | cons x xs =>
    simp only [List.cons_append, listContainsSub, Bool.or_eq_true]
    exact Or.inl (listStarts_self_append (x :: xs) t)

theorem listContainsSub_mid (a b t : List Char) :
    listContainsSub b (a ++ (b ++ t)) = true := by
  induction a with
  | nil => simpa using listContainsSub_self_append b t
  | cons x xs ih => simp [listContainsSub, ih]

theorem containsSub_mid (a b c : String) : containsSub (a ++ b ++ c) b = true := by
  show listContainsSub b.data (a ++ b ++ c).data = true
  have h : (a ++ b ++ c).data = a.data ++ (b.data ++ c.data) := by
    show (a.data ++ b.data) ++ c.data = _
    exact List.append_assoc _ _ _
  rw [h]
  exact listContainsSub_mid _ _ _

theorem containsSub_tail (a b : String) : containsSub (a ++ b) b = true := by
  show listContainsSub b.data (a ++ b).data = true
  have h : (a ++ b).data = a.data ++ (b.data ++ ([] : List Char)) := by
    show a.data ++ b.data = _
    simp
  rw [h]
  exact listContainsSub_mid _ _ _

theorem findPost_mem {db : Db} {i : Int} {p : Post} (h : findPost db i = some p) :
    p ∈ db.posts ∧ (p.id : Int) = i := by
  unfold findPost at h
  refine ⟨List.mem_of_find?_eq_some h, ?_⟩
  have hb := List.find?_some h
  exact eq_of_beq hb

theorem eq_of_mem_uniq {l : List Post} (h : l.Pairwise (fun a b => a.id ≠ b.id))
    {p q : Post} (hp : p ∈ l) (hq : q ∈ l) (hid : p.id = q.id) : p = q := by
  induction l with
  | nil => cases hp
  | cons a t ih =>
    have h' := List.pairwise_cons.mp h
    cases hp with
    | head =>
      cases hq with
      | head => rfl
      | tail _ hq' => exact absurd hid (h'.1 q hq')
    | tail _ hp' =>
      cases hq with
      | head => exact absurd hid.symm (h'.1 p hp')
      | tail _ hq' => exact ih h'.2 hp' hq'

theorem mem_updatePost {db : Db} {i : Nat} {f : Post → Post} {q' : Post}
    (h : q' ∈ (updatePost db i f).posts) :
    ∃ q ∈ db.posts, q' = if q.id = i then f q else q := by
  unfold updatePost at h
  simp only [List.mem_map] at h
  obtain ⟨q, hq, hval⟩ := h
  exact ⟨q, hq, hval.symm⟩

theorem prismaTake_sublist (n : Int) (l : List α) :
    List.Sublist (prismaTake n l) l := by
  unfold prismaTake
  split
  · exact List.take_sublist _ _
  · exact List.drop_sublist _ _

theorem prismaSkip_sublist (n : Int) (l : List α) :
    List.Sublist (prismaSkip n l) l :=
  List.drop_sublist _ _

theorem prismaTake_length (n : Int) (h : 0 ≤ n) (l : List α) :
    (prismaTake n l).length ≤ n.toNat := by
  unfold prismaTake
  rw [if_pos h, List.length_take]
  exact Nat.min_le_left _ _

theorem orFalsy_some {n d : Int} (h : n ≠ 0) : orFalsy (some n) d = n := by
  unfold orFalsy
  exact if_neg h

theorem storeInv_updatePost {db : Db} {p : Post} {f : Post → Post}
    (hinv : StoreInv db) (hp : p ∈ db.posts)
    (hid : ∀ q, (f q).id = q.id)
    (hts : TimestampInv (f p)) :
    StoreInv (updatePost db p.id f) := by
  obtain ⟨hall, hpw⟩ := hinv
  constructor
  · intro q' hq'
    obtain ⟨q, hq, hq'eq⟩ := mem_updatePost hq'
    by_cases hcase : q.id = p.id
    · have hqp : q = p := eq_of_mem_uniq hpw hq hp hcase
      subst hqp
      rw [hq'eq, if_pos hcase]
      exact ⟨hts, by rw [hid]; exact (hall q hq).2⟩
    · rw [hq'eq, if_neg hcase]
      exact hall q hq
  · show List.Pairwise _ (db.posts.map _)
    rw [List.pairwise_map]
    refine hpw.imp ?_
    intro a b hab
    have ha : (if a.id = p.id then f a else a).id = a.id := by
      by_cases h : a.id = p.id <;> simp [h, hid]
    have hb : (if b.id = p.id then f b else b).id = b.id := by
      by_cases h : b.id = p.id <;> simp [h, hid]
    rw [ha, hb]
    exact hab

theorem storeInv_settings {db : Db} {s : List (String × String)}
    (h : StoreInv db) : StoreInv { db with settings := s } := h

theorem storeInv_submitOp (db : Db) (content : Option JVal) (source : Option String)
    (cbUrl : Option JVal) (now : Nat) (h : StoreInv db) :
    StoreInv (submitOp db content source cbUrl now).db := by
  unfold submitOp
  split
  next => exact h
  next c hc =>
    split
    next => exact h
    next u hu =>
      obtain ⟨hall, hpw⟩ := h
      constructor
      · intro q hq
        rcases List.mem_append.mp hq with hq' | hq'
        · exact ⟨(hall q hq').1, Nat.lt_trans (hall q hq').2 (Nat.lt_succ_self _)⟩
        · rcases List.mem_singleton.mp hq' with rfl
          refine ⟨⟨?_, ?_⟩, Nat.lt_succ_self _⟩
          · simp
          · simp
      · rw [List.pairwise_append]
        refine ⟨hpw, List.pairwise_singleton _ _, ?_⟩
        intro a ha b hb
        rcases List.mem_singleton.mp hb with rfl
        exact Nat.ne_of_lt (hall a ha).2

theorem storeInv_approveOp (db : Db) (idStr : String) (wantsJson : Bool) (now : Nat)
    (outcome : FetchOutcome) (h : StoreInv db) :
    StoreInv (approveOp db idStr wantsJson now outcome).db := by
  unfold approveOp
  split
  next => exact h
  next i hpi =>
    split
    next => exact h
    next p hfp =>
      split
      next => exact h
      next hst =>
        have hst' : p.status = Status.PENDING := not_not.mp hst
        refine storeInv_updatePost h (findPost_mem hfp).1 (fun q => rfl) ?_
        constructor
        · simp
        · have hinv := (h.1 p (findPost_mem hfp).1).1
          simp only [Option.isSome_some]
          constructor
          · intro hsome
            exact absurd (hinv.2.mp hsome) (by rw [hst']; intro hx; cases hx)
          · intro hx; cases hx

theorem storeInv_rejectOp (db : Db) (idStr : String) (wantsJson : Bool)
    (h : StoreInv db) :
    StoreInv (rejectOp db idStr wantsJson).db := by
  unfold rejectOp
  split
  next => exact h
  next i hpi =>
    split
    next => exact h
    next p hfp =>
      split
      next => exact h
      next hst =>
        have hst' : p.status = Status.PENDING := not_not.mp hst
        refine storeInv_updatePost h (findPost_mem hfp).1 (fun q => rfl) ?_
        have hinv := (h.1 p (findPost_mem hfp).1).1
        constructor
        · constructor
          · intro hsome
            exact absurd (hinv.1.mp hsome) (by rw [hst']; intro hx; rcases hx with hx | hx <;> cases hx)
          · intro hx; rcases hx with hx | hx <;> cases hx
        · constructor
          · intro hsome
            exact absurd (hinv.2.mp hsome) (by rw [hst']; intro hx; cases hx)
          · intro hx; cases hx

theorem storeInv_confirmPostedOp (db : Db) (idStr : String) (now : Nat)
    (h : StoreInv db) :
    StoreInv (confirmPostedOp db idStr now).db := by
  unfold confirmPostedOp
  split
  next => exact h
  next i hpi =>
    split
    next => exact h
    next p hfp =>
      split
      next => exact h
      next hst =>
        have hst' : p.status = Status.APPROVED := not_not.mp hst
        refine storeInv_updatePost h (findPost_mem hfp).1 (fun q => rfl) ?_
        have hinv := (h.1 p (findPost_mem hfp).1).1
        constructor
        · constructor
          · intro _; exact Or.inr rfl
          · intro _
            exact hinv.1.mpr (Or.inl hst')
        · simp

theorem storeInv_deleteOp (db : Db) (idStr : String) (h : StoreInv db) :
    StoreInv (deleteOp db idStr).db := by
  unfold deleteOp
  split
  next => exact h
  next i hpi =>
    split
    next => exact h
    next p hfp =>
      obtain ⟨hall, hpw⟩ := h
      constructor
      · intro q hq
        exact hall q (List.mem_of_mem_filter hq)
      · exact hpw.sublist (List.filter_sublist _)

theorem storeInv_putSettingOp (db : Db) (k : String) (v : Option JVal)
    (h : StoreInv db) : StoreInv (putSettingOp db k v).db := by
  unfold putSettingOp
  split
  · cases v with
    | none => exact h
    | some jv =>
      cases jv with
      | str s => exact h
      | num n => exact h
      | null => exact h
  · exact h

theorem storeInv_bulkSettingsOp (db : Db) (entries : List (String × JVal))
    (h : StoreInv db) : StoreInv (bulkSettingsOp db entries).db := h

theorem reachable_storeInv {db : Db} (h : Reachable db) : StoreInv db := by
  induction h with
  | init =>
    exact ⟨fun p hp => absurd hp (List.not_mem_nil p), List.Pairwise.nil⟩
  | submit db content source cbUrl now _ ih => exact storeInv_submitOp db content source cbUrl now ih
  | approve db idStr wantsJson now outcome _ ih => exact storeInv_approveOp db idStr wantsJson now outcome ih
  | reject db idStr wantsJson _ ih => exact storeInv_rejectOp db idStr wantsJson ih
  | posted db idStr now _ ih => exact storeInv_confirmPostedOp db idStr now ih
  | del db idStr _ ih => exact storeInv_deleteOp db idStr ih
  | putSetting db k v _ ih => exact storeInv_putSettingOp db k v ih
  | bulkSettings db entries _ ih => exact storeInv_bulkSettingsOp db entries ih

theorem edges_submitOp (db : Db) (content : Option JVal) (source : Option String)
    (cbUrl : Option JVal) (now : Nat) (hinv : StoreInv db) :
    ∀ a ∈ db.posts, ∀ a' ∈ (submitOp db content source cbUrl now).db.posts,
      a.id = a'.id → a.status = a'.status ∨ StatusEdge a.status a'.status := by
  unfold submitOp
  split
  next =>
    intro a ha a' ha' hid
    exact Or.inl (congrArg Post.status (eq_of_mem_uniq hinv.2 ha ha' hid))
  next c hc =>
    split
    next =>
      intro a ha a' ha' hid
      exact Or.inl (congrArg Post.status (eq_of_mem_uniq hinv.2 ha ha' hid))
    next u hu =>
      intro a ha a' ha' hid
      rcases List.mem_append.mp ha' with ha'' | ha''
      · exact Or.inl (congrArg Post.status (eq_of_mem_uniq hinv.2 ha ha'' hid))
      · rcases List.mem_singleton.mp ha'' with rfl
        exact absurd hid (Nat.ne_of_lt (hinv.1 a ha).2)

theorem edges_updatePost {db : Db} {pf : Post} {f : Post → Post}
    (hinv : StoreInv db) (hpf : pf ∈ db.posts)
    (hid : ∀ q, (f q).id = q.id)
    (hedge : pf.status = (f pf).status ∨ StatusEdge pf.status (f pf).status) :
    ∀ a ∈ db.posts, ∀ a' ∈ (updatePost db pf.id f).posts,
      a.id = a'.id → a.status = a'.status ∨ StatusEdge a.status a'.status := by
  intro a ha a' ha' hida
  obtain ⟨q, hq, hq'⟩ := mem_updatePost ha'
  by_cases hcase : q.id = pf.id
  · have hqpf : q = pf := eq_of_mem_uniq hinv.2 hq hpf hcase
    subst hqpf
    rw [if_pos hcase] at hq'
    have haq : a = q := by
      refine eq_of_mem_uniq hinv.2 ha hq ?_
      rw [hida, hq', hid]
    rw [haq, hq']
    exact hedge
  · rw [if_neg hcase] at hq'
    rw [hq']
    exact Or.inl (congrArg Post.status (eq_of_mem_uniq hinv.2 ha hq (by rw [hida, hq'])))

theorem edges_approveOp (db : Db) (idStr : String) (wantsJson : Bool) (now : Nat)
    (outcome : FetchOutcome) (hinv : StoreInv db) :
    ∀ a ∈ db.posts, ∀ a' ∈ (approveOp db idStr wantsJson now outcome).db.posts,
      a.id = a'.id → a.status = a'.status ∨ StatusEdge a.status a'.status := by
  unfold approveOp
  split
  next =>
    intro a ha a' ha' hid
    exact Or.inl (congrArg Post.status (eq_of_mem_uniq hinv.2 ha ha' hid))
  next i hpi =>
    split
    next =>
      intro a ha a' ha' hid
      exact Or.inl (congrArg Post.status (eq_of_mem_uniq hinv.2 ha ha' hid))
    next p hfp =>
      split
      next =>
        intro a ha a' ha' hid
        exact Or.inl (congrArg Post.status (eq_of_mem_uniq hinv.2 ha ha' hid))
      next hst =>
        have hst' : p.status = Status.PENDING := not_not.mp hst
        exact edges_updatePost hinv (findPost_mem hfp).1 (fun q => rfl)
          (Or.inr (Or.inl ⟨hst', rfl⟩))

theorem edges_rejectOp (db : Db) (idStr : String) (wantsJson : Bool)
    (hinv : StoreInv db) :
    ∀ a ∈ db.posts, ∀ a' ∈ (rejectOp db idStr wantsJson).db.posts,
      a.id = a'.id → a.status = a'.status ∨ StatusEdge a.status a'.status := by
  unfold rejectOp
  split
  next =>
    intro a ha a' ha' hid
    exact Or.inl (congrArg Post.status (eq_of_mem_uniq hinv.2 ha ha' hid))
  next i hpi =>
    split
    next =>
      intro a ha a' ha' hid
      exact Or.inl (congrArg Post.status (eq_of_mem_uniq hinv.2 ha ha' hid))
    next p hfp =>
      split
      next =>
        intro a ha a' ha' hid
        exact Or.inl (congrArg Post.status (eq_of_mem_uniq hinv.2 ha ha' hid))
      next hst =>
        have hst' : p.status = Status.PENDING := not_not.mp hst
        exact edges_updatePost hinv (findPost_mem hfp).1 (fun q => rfl)
          (Or.inr (Or.inr (Or.inl ⟨hst', rfl⟩)))

theorem edges_confirmPostedOp (db : Db) (idStr : String) (now : Nat)
    (hinv : StoreInv db) :
    ∀ a ∈ db.posts, ∀ a' ∈ (confirmPostedOp db idStr now).db.posts,
      a.id = a'.id → a.status = a'.status ∨ StatusEdge a.status a'.status := by
  unfold confirmPostedOp
  split
  next =>
    intro a ha a' ha' hid
    exact Or.inl (congrArg Post.status (eq_of_mem_uniq hinv.2 ha ha' hid))
  next i hpi =>
    split
    next =>
      intro a ha a' ha' hid
      exact Or.inl (congrArg Post.status (eq_of_mem_uniq hinv.2 ha ha' hid))
    next p hfp =>
      split
      next =>
        intro a ha a' ha' hid
        exact Or.inl (congrArg Post.status (eq_of_mem_uniq hinv.2 ha ha' hid))
      next hst =>
        have hst' : p.status = Status.APPROVED := not_not.mp hst
        exact edges_updatePost hinv (findPost_mem hfp).1 (fun q => rfl)
          (Or.inr (Or.inr (Or.inr ⟨hst', rfl⟩)))

/-! ### Reduction lemmas for the handlers -/

theorem approveOp_success_eq (db : Db) (idStr : String) (i : Int) (p : Post)
    (wantsJson : Bool) (now : Nat) (outcome : FetchOutcome)
    (hpi : jsParseInt idStr = some i) (hfp : findPost db i = some p)
    (hst : p.status = Status.PENDING) :
    approveOp db idStr wantsJson now outcome =
      { db := updatePost db p.id
          (fun q => { q with status := .APPROVED, approvedAt := some now }),
        code := 200,
        message := if wantsJson then "Post approved and sent for posting"
                   else "Post Approved. Pushing to LinkedIn.",
        requests := [{ url := p.n8nCallbackUrl, method := "POST",
                       body := [("post_id", .num (p.id : Int)), ("status", .str "APPROVED"),
                                ("post_content", .str p.content)] }],
        events := [.dbUpdate p.id .APPROVED, .fetchAttempt p.n8nCallbackUrl] ++
          (match outcome with
           | .ok => []
           | .httpError _ => [.logged "n8n callback failed"]
           | .netError => [.logged "Failed to call n8n callback URL"]) } := by
  simp only [approveOp, hpi, hfp]
  rw [if_neg (not_not_intro hst)]

theorem approveOp_guard_eq (db : Db) (idStr : String) (i : Int) (p : Post)
    (wantsJson : Bool) (now : Nat) (outcome : FetchOutcome)
    (hpi : jsParseInt idStr = some i) (hfp : findPost db i = some p)
    (hst : p.status ≠ Status.PENDING) :
    approveOp db idStr wantsJson now outcome =
      { db := db, code := 400,
        message := "This post has already been " ++ asciiLower (statusToStr p.status) ++ "." } := by
  simp only [approveOp, hpi, hfp]
  rw [if_pos hst]

theorem approveOp_notFound_eq (db : Db) (idStr : String) (i : Int)
    (wantsJson : Bool) (now : Nat) (outcome : FetchOutcome)
    (hpi : jsParseInt idStr = some i) (hfp : findPost db i = none) :
    approveOp db idStr wantsJson now outcome =
      { db := db, code := 404, message := "Post not found" } := by
  simp only [approveOp, hpi, hfp]

theorem rejectOp_guard_eq (db : Db) (idStr : String) (i : Int) (p : Post)
    (wantsJson : Bool)
    (hpi : jsParseInt idStr = some i) (hfp : findPost db i = some p)
    (hst : p.status ≠ Status.PENDING) :
    rejectOp db idStr wantsJson =
      { db := db, code := 400,
        message := "This post has already been " ++ asciiLower (statusToStr p.status) ++ "." } := by
  simp only [rejectOp, hpi, hfp]
  rw [if_pos hst]

theorem rejectOp_notFound_eq (db : Db) (idStr : String) (i : Int) (wantsJson : Bool)
    (hpi : jsParseInt idStr = some i) (hfp : findPost db i = none) :
    rejectOp db idStr wantsJson =
      { db := db, code := 404, message := "Post not found" } := by
  simp only [rejectOp, hpi, hfp]

theorem confirmPostedOp_guard_eq (db : Db) (idStr : String) (i : Int) (p : Post)
    (now : Nat)
    (hpi : jsParseInt idStr = some i) (hfp : findPost db i = some p)
    (hst : p.status ≠ Status.APPROVED) :
    confirmPostedOp db idStr now =
      { db := db, code := 400,
        message := "Cannot mark post as posted. Current status: " ++ statusToStr p.status } := by
  simp only [confirmPostedOp, hpi, hfp]
  rw [if_pos hst]

theorem confirmPostedOp_notFound_eq (db : Db) (idStr : String) (i : Int) (now : Nat)
    (hpi : jsParseInt idStr = some i) (hfp : findPost db i = none) :
    confirmPostedOp db idStr now =
      { db := db, code := 404, message := "Post not found" } := by
  simp only [confirmPostedOp, hpi, hfp]

/-! ### Claim theorems -/

/-- Claim C2: in every reachable store state a record has approvedAt
non-null iff its status is APPROVED or POSTED and postedAt non-null
iff its status is POSTED; and each of submit, approve, reject and
confirmPosted moves a record status only along PENDING to APPROVED,
PENDING to REJECTED, or APPROVED to POSTED, never along any other
edge and never backwards. -/
theorem record_status_invariant_and_edges :
    (∀ db, Reachable db → ∀ p ∈ db.posts,
        (p.approvedAt.isSome = true ↔ (p.status = .APPROVED ∨ p.status = .POSTED)) ∧
        (p.postedAt.isSome = true ↔ p.status = .POSTED)) ∧
    (∀ db db', Reachable db → OpStep db db' →
        ∀ p ∈ db.posts, ∀ p' ∈ db'.posts, p.id = p'.id →
          p.status = p'.status ∨ StatusEdge p.status p'.status) := by
  constructor
  · intro db h p hp
    exact ((reachable_storeInv h).1 p hp).1
  · intro db db' hre hstep
    have hinv := reachable_storeInv hre
    cases hstep with
    | submit content source cbUrl now => exact edges_submitOp db content source cbUrl now hinv
    | approve idStr wantsJson now outcome => exact edges_approveOp db idStr wantsJson now outcome hinv
    | reject idStr wantsJson => exact edges_rejectOp db idStr wantsJson hinv
    | posted idStr now => exact edges_confirmPostedOp db idStr now hinv

theorem reachable_dbA : Reachable dbA :=
  Reachable.submit db0 (some (.str "Hello")) none (some (.str "https://cb.example/x")) 10
    Reachable.init

/-- Witness for C2 at a concrete reachable store and a concrete
approve step. -/
theorem record_status_invariant_witness :
    (∀ p ∈ dbA.posts,
        (p.approvedAt.isSome = true ↔ (p.status = .APPROVED ∨ p.status = .POSTED)) ∧
        (p.postedAt.isSome = true ↔ p.status = .POSTED)) ∧
    (∀ p ∈ dbA.posts, ∀ p' ∈ (approveOp dbA "1" true 20 .ok).db.posts,
        p.id = p'.id → p.status = p'.status ∨ StatusEdge p.status p'.status) :=
  ⟨record_status_invariant_and_edges.1 dbA reachable_dbA,
   record_status_invariant_and_edges.2 dbA (approveOp dbA "1" true 20 .ok).db reachable_dbA
     (OpStep.approve dbA "1" true 20 .ok)⟩

/-- Claim C1 counterexample: on a concrete PENDING record the approve
handler fires exactly one callback request, but its JSON body carries
the keys post_id, status, post_content, not the keys id, status,
content stated by the claim. -/
theorem approve_callback_body_keys_cex :
    (approveOp dbA "1" true 20 .ok).requests.map (fun r => r.body.map Prod.fst) =
      [["post_id", "status", "post_content"]] ∧
    ¬ ((approveOp dbA "1" true 20 .ok).requests.map (fun r => r.body.map Prod.fst) =
      [["id", "status", "content"]]) := by
  decide

/-- Claim C1 (amended): for every PENDING record the approve operation
fires exactly one HTTP POST to the record's stored callback URL whose
JSON body has the keys post_id, status and post_content, where
post_id is the record id, status is APPROVED and post_content is the
stored content. -/
theorem approve_callback_request_amended (db : Db) (idStr : String) (i : Int) (p : Post)
    (wantsJson : Bool) (now : Nat) (outcome : FetchOutcome)
    (hpi : jsParseInt idStr = some i) (hfp : findPost db i = some p)
    (hst : p.status = Status.PENDING) :
    (approveOp db idStr wantsJson now outcome).requests =
      [{ url := p.n8nCallbackUrl, method := "POST",
         body := [("post_id", .num (p.id : Int)), ("status", .str "APPROVED"),
                  ("post_content", .str p.content)] }] := by
  rw [approveOp_success_eq db idStr i p wantsJson now outcome hpi hfp hst]

/-- Witness for the amended C1 on a concrete store. -/
theorem approve_callback_request_witness :
    (approveOp dbA "1" true 20 .ok).requests =
      [{ url := "https://cb.example/x", method := "POST",
         body := [("post_id", .num 1), ("status", .str "APPROVED"),
                  ("post_content", .str "Hello")] }] :=
  approve_callback_request_amended dbA "1" 1 postA true 20 .ok (by decide) (by decide) rfl

/-- Claim C3: for a PENDING record the approve operation commits the
APPROVED transition (with approvedAt set) before attempting the
callback, and neither the committed state nor the 200 success
response depends on the callback outcome. -/
theorem approve_commits_then_callback (db : Db) (idStr : String) (i : Int) (p : Post)
    (wantsJson : Bool) (now : Nat) (outcome : FetchOutcome)
    (hpi : jsParseInt idStr = some i) (hfp : findPost db i = some p)
    (hst : p.status = Status.PENDING) :
    (approveOp db idStr wantsJson now outcome).code = 200 ∧
    (∀ q ∈ (approveOp db idStr wantsJson now outcome).db.posts,
        q.id = p.id → q.status = .APPROVED ∧ q.approvedAt = some now) ∧
    (approveOp db idStr wantsJson now outcome).events.take 2 =
      [.dbUpdate p.id .APPROVED, .fetchAttempt p.n8nCallbackUrl] ∧
    (∀ outcome', (approveOp db idStr wantsJson now outcome).db =
        (approveOp db idStr wantsJson now outcome').db ∧
      (approveOp db idStr wantsJson now outcome).code =
        (approveOp db idStr wantsJson now outcome').code) := by
  refine ⟨?_, ?_, ?_, ?_⟩
  · rw [approveOp_success_eq db idStr i p wantsJson now outcome hpi hfp hst]
  · intro q hq hqid
    rw [approveOp_success_eq db idStr i p wantsJson now outcome hpi hfp hst] at hq
    obtain ⟨r, hr, hr'⟩ := mem_updatePost hq
    by_cases hc : r.id = p.id
    · rw [hr', if_pos hc]
      exact ⟨rfl, rfl⟩
    · rw [hr', if_neg hc] at hqid
      exact absurd hqid hc
  · cases outcome with
    | ok =>
      rw [approveOp_success_eq db idStr i p wantsJson now .ok hpi hfp hst]
      rfl
    | httpError c =>
      rw [approveOp_success_eq db idStr i p wantsJson now (.httpError c) hpi hfp hst]
      rfl
    | netError =>
      rw [approveOp_success_eq db idStr i p wantsJson now .netError hpi hfp hst]
      rfl
  · intro outcome'
    rw [approveOp_success_eq db idStr i p wantsJson now outcome hpi hfp hst,
        approveOp_success_eq db idStr i p wantsJson now outcome' hpi hfp hst]
    exact ⟨rfl, rfl⟩

/-- Witness for C3: a network error on the callback still leaves a 200
response and the committed APPROVED record. -/
theorem approve_commits_then_callback_witness :
    (approveOp dbA "1" true 20 .netError).code = 200 ∧
    (approveOp dbA "1" true 20 .netError).events.take 2 =
      [.dbUpdate postA.id .APPROVED, .fetchAttempt postA.n8nCallbackUrl] :=
  ⟨(approve_commits_then_callback dbA "1" 1 postA true 20 .netError
      (by decide) (by decide) rfl).1,
   (approve_commits_then_callback dbA "1" 1 postA true 20 .netError
      (by decide) (by decide) rfl).2.2.1⟩

/-- Claim C4: approving or rejecting an existing record whose status
is not PENDING fails with 400, the message carries the current status
lower-cased, and the store is unchanged; an already approved record
yields a message mentioning approved; an unknown id yields 404. -/
theorem approve_reject_guard_errors (db : Db) (idStr : String) (i : Int)
    (wantsJson : Bool) (now : Nat) (outcome : FetchOutcome)
    (hpi : jsParseInt idStr = some i) :
    (∀ p, findPost db i = some p → p.status ≠ Status.PENDING →
      (approveOp db idStr wantsJson now outcome).code = 400 ∧
      (approveOp db idStr wantsJson now outcome).message =
        "This post has already been " ++ asciiLower (statusToStr p.status) ++ "." ∧
      containsSub (approveOp db idStr wantsJson now outcome).message
        (asciiLower (statusToStr p.status)) = true ∧
      (approveOp db idStr wantsJson now outcome).db = db ∧
      (rejectOp db idStr wantsJson).code = 400 ∧
      (rejectOp db idStr wantsJson).message =
        "This post has already been " ++ asciiLower (statusToStr p.status) ++ "." ∧
      (rejectOp db idStr wantsJson).db = db ∧
      (p.status = Status.APPROVED →
        containsSub (approveOp db idStr wantsJson now outcome).message "approved" = true ∧
        containsSub (rejectOp db idStr wantsJson).message "approved" = true)) ∧
    (findPost db i = none →
      (approveOp db idStr wantsJson now outcome).code = 404 ∧
      (approveOp db idStr wantsJson now outcome).db = db ∧
      (rejectOp db idStr wantsJson).code = 404 ∧
      (rejectOp db idStr wantsJson).db = db) := by
  constructor
  · intro p hfp hst
    rw [approveOp_guard_eq db idStr i p wantsJson now outcome hpi hfp hst,
        rejectOp_guard_eq db idStr i p wantsJson hpi hfp hst]
    refine ⟨rfl, rfl, ?_, rfl, rfl, rfl, rfl, ?_⟩
    · exact containsSub_mid "This post has already been " (asciiLower (statusToStr p.status)) "."
    · intro hap
      rw [hap]
      constructor
      · show containsSub
          ("This post has already been " ++ asciiLower (statusToStr Status.APPROVED) ++ ".")
          "approved" = true
        decide
      · show containsSub
          ("This post has already been " ++ asciiLower (statusToStr Status.APPROVED) ++ ".")
          "approved" = true
        decide
  · intro hfp
    rw [approveOp_notFound_eq db idStr i wantsJson now outcome hpi hfp,
        rejectOp_notFound_eq db idStr i wantsJson hpi hfp]
    exact ⟨rfl, rfl, rfl, rfl⟩

/-- Witness for C4: double approve on a concrete store and a missing
id. -/
theorem approve_reject_guard_witness :
    (approveOp dbB "1" true 30 .ok).code = 400 ∧
    containsSub (approveOp dbB "1" true 30 .ok).message "approved" = true ∧
    (approveOp dbB "2" true 30 .ok).code = 404 :=
  ⟨((approve_reject_guard_errors dbB "1" 1 true 30 .ok (by decide)).1 postB
      (by decide) (by decide)).1,
   (((approve_reject_guard_errors dbB "1" 1 true 30 .ok (by decide)).1 postB
      (by decide) (by decide)).2.2.2.2.2.2.2 rfl).1,
   ((approve_reject_guard_errors dbB "2" 2 true 30 .ok (by decide)).2 (by decide)).1⟩

/-- Claim C5: confirmPosted on an existing record whose status is not
APPROVED fails with 400 and a message carrying the current status
as-is (upper case, unlike approve and reject), leaving the store
unchanged; an unknown id yields 404. -/
theorem confirm_posted_guard_errors (db : Db) (idStr : String) (i : Int) (now : Nat)
    (hpi : jsParseInt idStr = some i) :
    (∀ p, findPost db i = some p → p.status ≠ Status.APPROVED →
      (confirmPostedOp db idStr now).code = 400 ∧
      (confirmPostedOp db idStr now).message =
        "Cannot mark post as posted. Current status: " ++ statusToStr p.status ∧
      containsSub (confirmPostedOp db idStr now).message (statusToStr p.status) = true ∧
      (confirmPostedOp db idStr now).db = db) ∧
    (findPost db i = none →
      (confirmPostedOp db idStr now).code = 404 ∧
      (confirmPostedOp db idStr now).db = db) := by
  constructor
  · intro p hfp hst
    rw [confirmPostedOp_guard_eq db idStr i p now hpi hfp hst]
    refine ⟨rfl, rfl, ?_, rfl⟩
    exact containsSub_tail "Cannot mark post as posted. Current status: " (statusToStr p.status)
  · intro hfp
    rw [confirmPostedOp_notFound_eq db idStr i now hpi hfp]
    exact ⟨rfl, rfl⟩

/-- Witness for C5 on a concrete PENDING record and a missing id. -/
theorem confirm_posted_guard_witness :
    (confirmPostedOp dbA "1" 30).code = 400 ∧
    containsSub (confirmPostedOp dbA "1" 30).message (statusToStr postA.status) = true ∧
    (confirmPostedOp dbA "9" 30).code = 404 :=
  ⟨((confirm_posted_guard_errors dbA "1" 1 30 (by decide)).1 postA
      (by decide) (by decide)).1,
   ((confirm_posted_guard_errors dbA "1" 1 30 (by decide)).1 postA
      (by decide) (by decide)).2.2.1,
   ((confirm_posted_guard_errors dbA "9" 9 30 (by decide)).2 (by decide)).1⟩

/-- Claim C6 counterexample: confirmPosted on a concrete PENDING
record answers 400 with the message naming the current status token
PENDING; the message does not contain APPROVED as the claim states. -/
theorem confirm_posted_pending_message_cex :
    (confirmPostedOp dbA "1" 30).code = 400 ∧
    (confirmPostedOp dbA "1" 30).message =
      "Cannot mark post as posted. Current status: PENDING" ∧
    containsSub (confirmPostedOp dbA "1" 30).message "APPROVED" = false ∧
    (confirmPostedOp dbA "1" 30).db = dbA := by
  decide

/-- Claim C6 (amended): confirmPosted on a PENDING record returns 400
with a body message containing the current status token PENDING, and
leaves the record unchanged. -/
theorem confirm_posted_pending_message_amended (db : Db) (idStr : String) (i : Int)
    (p : Post) (now : Nat)
    (hpi : jsParseInt idStr = some i) (hfp : findPost db i = some p)
    (hst : p.status = Status.PENDING) :
    (confirmPostedOp db idStr now).code = 400 ∧
    containsSub (confirmPostedOp db idStr now).message "PENDING" = true ∧
    (confirmPostedOp db idStr now).db = db := by
  have hne : p.status ≠ Status.APPROVED := by
    rw [hst]
    intro hx
    cases hx
  rw [confirmPostedOp_guard_eq db idStr i p now hpi hfp hne]
  refine ⟨rfl, ?_, rfl⟩
  show containsSub ("Cannot mark post as posted. Current status: " ++ statusToStr p.status)
    "PENDING" = true
  rw [hst]
  decide

/-- Witness for the amended C6 on a concrete store. -/
theorem confirm_posted_pending_message_witness :
    (confirmPostedOp dbA "1" 30).code = 400 ∧
    containsSub (confirmPostedOp dbA "1" 30).message "PENDING" = true ∧
    (confirmPostedOp dbA "1" 30).db = dbA :=
  confirm_posted_pending_message_amended dbA "1" 1 postA 30 (by decide) (by decide) rfl

/-- Claim C7 counterexample: an empty content has length at most 500,
yet the status-update notice does not show it unchanged; the
JavaScript truthiness test routes it to the generic fallback line. -/
theorem status_update_empty_content_cex :
    ("" : String).length ≤ 500 ∧
    statusUpdateDescription 7 .APPROVED (some "") = "Post #7 has been approved." ∧
    statusUpdateDescription 7 .APPROVED (some "") ≠ "" := by
  decide

/-- Claim C7 (amended): the pending notice shows any content unchanged
up to 1000 characters and otherwise the first 997 characters plus an
ellipsis; the status-update notice shows a non-empty content
unchanged up to 500 characters and otherwise the first 497 plus an
ellipsis (an empty content falls back to a generic status line). -/
theorem notification_truncation_amended :
    ∀ (c : String) (postId : Nat) (st : Status),
      (c.length ≤ 1000 → displayContent c = c) ∧
      (1000 < c.length → displayContent c = c.take 997 ++ "...") ∧
      (c ≠ "" → c.length ≤ 500 → statusUpdateDescription postId st (some c) = c) ∧
      (c ≠ "" → 500 < c.length → statusUpdateDescription postId st (some c) = c.take 497 ++ "...") ∧
      (statusUpdateDescription postId st (some "") =
        "Post #" ++ toString postId ++ " has been " ++ asciiLower (statusToStr st) ++ ".") := by
  intro c postId st
  refine ⟨?_, ?_, ?_, ?_, ?_⟩
  · intro h
    unfold displayContent
    rw [if_neg (by omega)]
  · intro h
    unfold displayContent
    rw [if_pos (by omega)]
  · intro hne h
    simp only [statusUpdateDescription]
    rw [if_neg hne, if_neg (by omega)]
  · intro hne h
    simp only [statusUpdateDescription]
    rw [if_neg hne, if_pos (by omega)]
  · simp only [statusUpdateDescription]
    rw [if_pos trivial]

/-- Witness for the amended C7 on concrete short contents and the
empty-content fallback. -/
theorem notification_truncation_witness :
    displayContent "hi" = "hi" ∧ statusUpdateDescription 1 .POSTED (some "hi") = "hi" ∧
    statusUpdateDescription 3 .REJECTED (some "") =
      "Post #" ++ toString 3 ++ " has been " ++ asciiLower (statusToStr .REJECTED) ++ "." :=
  ⟨(notification_truncation_amended "hi" 1 .POSTED).1 (by decide),
   (notification_truncation_amended "hi" 1 .POSTED).2.2.1 (by decide) (by decide),
   (notification_truncation_amended "hi" 3 .REJECTED).2.2.2.2⟩

/-- Claim C10: a parsable limit above 100 is echoed unclamped in
pagination.limit while at most 100 records are returned. -/
theorem pagination_limit_unclamped (db : Db) (statusQ offsetQ : Option String)
    (s : String) (n : Int)
    (hps : jsParseInt s = some n) (h100 : 100 < n) :
    (listOp db statusQ (some s) offsetQ).pagination.limit = n ∧
    (listOp db statusQ (some s) offsetQ).data.length ≤ 100 := by
  have he : orFalsy (jsParseInt ((some s).getD "50")) 50 = n := by
    show orFalsy (jsParseInt s) 50 = n
    rw [hps]
    exact orFalsy_some (by omega)
  constructor
  · show orFalsy (jsParseInt ((some s).getD "50")) 50 = n
    exact he
  · show (prismaTake (min (orFalsy (jsParseInt ((some s).getD "50")) 50) 100) _).length ≤ 100
    rw [he, min_eq_right (le_of_lt h100)]
    calc (prismaTake (100 : Int) _).length ≤ ((100 : Int)).toNat :=
          prismaTake_length _ (by decide) _
      _ = 100 := by decide

/-- Witness for C10 with a requested limit of 500. -/
theorem pagination_limit_unclamped_witness :
    (listOp dbA none (some "500") none).pagination.limit = 500 ∧
    (listOp dbA none (some "500") none).data.length ≤ 100 :=
  pagination_limit_unclamped dbA none none "500" 500 (by decide) (by decide)

theorem applyEntry_invalid (l : List (String × String)) (e : String × JVal)
    (h : validEntry e = false) : applyEntry l e = l := by
  unfold validEntry at h
  unfold applyEntry
  by_cases hk : allowedKeys.contains e.1 = true
  · rw [if_pos hk]
    rw [hk, Bool.true_and] at h
    cases he : e.2 with
    | str s => rw [he] at h; simp at h
    | num n => rfl
    | null => rfl
  · rw [if_neg hk]

theorem foldl_applyEntry_filter (entries : List (String × JVal))
    (l : List (String × String)) :
    entries.foldl applyEntry l = (entries.filter validEntry).foldl applyEntry l := by
  induction entries generalizing l with
  | nil => rfl
  | cons e t ih =>
    cases hv : validEntry e with
    | true =>
      simp only [List.foldl_cons, List.filter_cons, hv, if_pos]
      exact ih (applyEntry l e)
    | false =>
      simp only [List.foldl_cons, List.filter_cons, hv, Bool.false_eq_true, if_false]
      rw [applyEntry_invalid l e hv]
      exact ih l

/-- Claim C9: a bulk settings update silently skips entries with a key
outside the allow-list or a non-string value while persisting the
rest, and answers 200 with the full resulting map; a single-key update
to a disallowed key is rejected with 400 and persists nothing; a
single-key read of a missing key answers 404. -/
theorem settings_allowlist_behavior :
    (∀ (db : Db) (entries : List (String × JVal)),
      (bulkSettingsOp db entries).code = 200 ∧
      bulkSettingsOp db entries = bulkSettingsOp db (entries.filter validEntry) ∧
      (bulkSettingsOp db entries).data = (bulkSettingsOp db entries).db.settings) ∧
    (∀ (db : Db) (k : String) (v : Option JVal),
      allowedKeys.contains k = false →
      (putSettingOp db k v).code = 400 ∧ (putSettingOp db k v).db = db) ∧
    (∀ (db : Db) (k : String),
      lookupSetting db.settings k = none →
      (getSettingOp db k).code = 404) := by
  refine ⟨?_, ?_, ?_⟩
  · intro db entries
    refine ⟨rfl, ?_, rfl⟩
    unfold bulkSettingsOp
    rw [foldl_applyEntry_filter]
  · intro db k v h
    unfold putSettingOp
    have hc : ¬ (allowedKeys.contains k = true) := by
      rw [h]
      simp
    rw [if_neg hc]
    exact ⟨rfl, rfl⟩
  · intro db k h
    simp only [getSettingOp, h]

/-- Witness for C9: a mixed bulk update, a disallowed single-key
update and a missing single-key read on the empty store. -/
theorem settings_allowlist_witness :
    (bulkSettingsOp db0
      [("discord_webhook_url", .str "https://d.example"), ("bogus", .str "x"),
       ("n8n_base_url", .num 3)]).code = 200 ∧
    (putSettingOp db0 "bogus" (some (.str "x"))).code = 400 ∧
    (putSettingOp db0 "bogus" (some (.str "x"))).db = db0 ∧
    (getSettingOp db0 "discord_webhook_url").code = 404 :=
  ⟨(settings_allowlist_behavior.1 db0
      [("discord_webhook_url", .str "https://d.example"), ("bogus", .str "x"),
       ("n8n_base_url", .num 3)]).1,
   (settings_allowlist_behavior.2.1 db0 "bogus" (some (.str "x")) (by decide)).1,
   (settings_allowlist_behavior.2.1 db0 "bogus" (some (.str "x")) (by decide)).2,
   settings_allowlist_behavior.2.2 db0 "discord_webhook_url" (by decide)⟩

/-- Claim C8 counterexample: with one stored record and the query
string limit equal to 0 the handler still returns one record, because
parseInt gives the falsy 0 and the or-default bumps the take to 50;
the returned count exceeds min(limit, 100) = 0. -/
theorem list_limit_zero_cex :
    jsParseInt "0" = some 0 ∧
    (listOp dbA none (some "0") none).data.length = 1 ∧
    ¬ (((listOp dbA none (some "0") none).data.length : Int) ≤ min 0 100) := by
  decide

theorem listOp_eff50 (db : Db) (statusQ limitQ offsetQ : Option String)
    (h : orFalsy (jsParseInt (limitQ.getD "50")) 50 = 50) :
    (listOp db statusQ limitQ offsetQ).pagination.limit = 50 ∧
    (listOp db statusQ limitQ offsetQ).data.length ≤ 50 := by
  constructor
  · show orFalsy (jsParseInt (limitQ.getD "50")) 50 = 50
    exact h
  · show (prismaTake (min (orFalsy (jsParseInt (limitQ.getD "50")) 50) 100) _).length ≤ 50
    rw [h]
    calc (prismaTake (min (50 : Int) 100) _).length ≤ (min (50 : Int) 100).toNat :=
          prismaTake_length _ (by decide) _
      _ = 50 := by decide

/-- Claim C8 (amended): a non-empty status filter restricts the
returned records to the status named by the upper-cased filter;
records come back ordered by creation time descending; a parsed
positive limit bounds the returned count by min(limit, 100); an
absent, unparsable or zero limit falls back to an effective limit of
50 (zero because the JavaScript or-default treats 0 as falsy), and an
absent or unparsable offset falls back to 0. -/
theorem list_filter_order_limit_amended (db : Db) (statusQ limitQ offsetQ : Option String) :
    (∀ s, statusQ = some s → s ≠ "" →
      ∀ p ∈ (listOp db statusQ limitQ offsetQ).data, statusToStr p.status = asciiUpper s) ∧
    (listOp db statusQ limitQ offsetQ).data.Pairwise (fun a b => b.createdAt ≤ a.createdAt) ∧
    (∀ s n, limitQ = some s → jsParseInt s = some n → 1 ≤ n →
      (((listOp db statusQ limitQ offsetQ).data.length : Int) ≤ min n 100)) ∧
    ((limitQ = none ∨ ∃ s, limitQ = some s ∧ (jsParseInt s = none ∨ jsParseInt s = some 0)) →
      (listOp db statusQ limitQ offsetQ).pagination.limit = 50 ∧
      (listOp db statusQ limitQ offsetQ).data.length ≤ 50) ∧
    ((offsetQ = none ∨ ∃ s, offsetQ = some s ∧ jsParseInt s = none) →
      (listOp db statusQ limitQ offsetQ).pagination.offset = 0) := by
  refine ⟨?_, ?_, ?_, ?_, ?_⟩
  · intro s hs hne p hp
    subst hs
    have hp1 : p ∈ List.insertionSort postDescOrder
        (db.posts.filter (whereFilter (some s))) := by
      have h2 := (prismaTake_sublist _ _).subset hp
      exact (prismaSkip_sublist _ _).subset h2
    have hp2 : p ∈ db.posts.filter (whereFilter (some s)) :=
      (List.perm_insertionSort postDescOrder _).mem_iff.mp hp1
    have hw := (List.mem_filter.mp hp2).2
    simp only [whereFilter] at hw
    rw [if_neg hne] at hw
    exact eq_of_beq hw
  · have hs := List.sorted_insertionSort postDescOrder
      (db.posts.filter (whereFilter statusQ))
    have hsub : List.Sublist (listOp db statusQ limitQ offsetQ).data
        (List.insertionSort postDescOrder (db.posts.filter (whereFilter statusQ))) := by
      show List.Sublist (prismaTake _ (prismaSkip _ _)) _
      exact (prismaTake_sublist _ _).trans (prismaSkip_sublist _ _)
    exact (hs.sublist hsub).imp (fun h => h)
  · intro s n hs hn h1
    subst hs
    have he : orFalsy (jsParseInt ((some s).getD "50")) 50 = n := by
      show orFalsy (jsParseInt s) 50 = n
      rw [hn]
      exact orFalsy_some (by omega)
    have h0 : (0 : Int) ≤ min n 100 := le_min (by omega) (by omega)
    show ((prismaTake (min (orFalsy (jsParseInt ((some s).getD "50")) 50) 100)
      (prismaSkip _ _)).length : Int) ≤ min n 100
    rw [he]
    calc ((prismaTake (min n 100) (prismaSkip _ _)).length : Int)
        ≤ ((min n 100).toNat : Int) := Int.ofNat_le.mpr (prismaTake_length _ h0 _)
      _ = min n 100 := Int.toNat_of_nonneg h0
  · intro h
    rcases h with rfl | ⟨s, rfl, hps⟩
    · exact listOp_eff50 db statusQ none offsetQ (by decide)
    · refine listOp_eff50 db statusQ (some s) offsetQ ?_
      show orFalsy (jsParseInt s) 50 = 50
      rcases hps with hps | hps <;> rw [hps] <;> rfl
  · intro h
    rcases h with rfl | ⟨s, rfl, hps⟩
    · show orFalsy (jsParseInt (((none : Option String)).getD "0")) 0 = 0
      decide
    · show orFalsy (jsParseInt s) 0 = 0
      rw [hps]
      rfl

/-- Witness for the amended C8: filter PENDING with limit 10 on the
concrete store. -/
theorem list_amended_witness :
    (∀ p ∈ (listOp dbA (some "PENDING") (some "10") none).data,
        statusToStr p.status = asciiUpper "PENDING") ∧
    (((listOp dbA (some "PENDING") (some "10") none).data.length : Int) ≤ min 10 100) ∧
    (listOp dbA (some "PENDING") none none).pagination.limit = 50 :=
  ⟨fun p hp => (list_filter_order_limit_amended dbA (some "PENDING") (some "10") none).1
      "PENDING" rfl (by decide) p hp,
   (list_filter_order_limit_amended dbA (some "PENDING") (some "10") none).2.2.1
      "10" 10 rfl (by decide) (by decide),
   ((list_filter_order_limit_amended dbA (some "PENDING") none none).2.2.2.1
      (Or.inl rfl)).1⟩
